import Mathlib

/-!
Verification of the MQTT 3.1.1 stateful fuzzer's connection-lifecycle core
(file mqtt_fuzzer_stateful.py): the remaining-length codec, the CONNECT
packet builder, the CONNACK and PINGRESP reply checks, and the pre/post
test-case callbacks.  Byte strings are embedded as lists of Nat values
below 256; socket handles are opaque Nat identifiers; network interaction
is passed in explicitly (a reply buffer, or a marker for an exception),
and the transport operations a function performs are returned as a trace.
-/

namespace MqttFuzzer

/-- Embedding of MQTTConnection._encode_remaining_length: repeatedly emit
digit = length % 128, OR-ing in the continuation bit 0x80 whenever the
quotient length // 128 is still positive, and stop once that quotient
reaches 0.  The Python loop appends the digit and then tests the quotient;
the recursion below emits the same bytes in the same order. -/
def encodeRemLen (length : Nat) : List Nat :=
  if h : length / 128 > 0 then
    (length % 128 ||| 0x80) :: encodeRemLen (length / 128)
  else
    [length % 128]
termination_by length
decreasing_by
  omega

/-- Value denoted by a variable-byte sequence: 7 data bits per byte,
least-significant group first (the inverse reading of the wire format). -/
def rlDecode : List Nat → Nat
  | [] => 0
  | b :: rest => b % 128 + 128 * rlDecode rest

/-- Structural well-formedness of a variable-byte sequence: nonempty,
every byte below 256, the continuation bit set on every byte except the
last, and clear on the last. -/
def rlWellFormed : List Nat → Bool
  | [] => false
  | [b] => decide (b < 128)
  | b :: rest => decide (128 ≤ b ∧ b < 256) && rlWellFormed rest

/-- Number of bytes of the canonical (shortest) variable-byte encoding of
a value in the MQTT remaining-length range. -/
def rlCanonLen (n : Nat) : Nat :=
  if n < 128 then 1 else if n < 16384 then 2 else if n < 2097152 then 3 else 4

theorem or128_eq_add {d : Nat} (h : d < 128) : d ||| 128 = d + 128 := by
  revert h
  revert d
  decide

theorem encodeRemLen_low {n : Nat} (h : n < 128) : encodeRemLen n = [n] := by
  rw [encodeRemLen]
  simp [Nat.div_eq_of_lt h, Nat.mod_eq_of_lt h]

theorem encodeRemLen_two {n : Nat} (h1 : 128 ≤ n) (h2 : n < 16384) :
    encodeRemLen n = [n % 128 + 128, n / 128] := by
  rw [encodeRemLen]
  have hq1 : 0 < n / 128 := by omega
  have hq2 : n / 128 < 128 := by omega
  simp only [hq1, dif_pos, or128_eq_add (Nat.mod_lt n (by omega)),
    encodeRemLen_low hq2]

theorem encodeRemLen_three {n : Nat} (h1 : 16384 ≤ n) (h2 : n < 2097152) :
    encodeRemLen n = [n % 128 + 128, n / 128 % 128 + 128, n / 128 / 128] := by
  rw [encodeRemLen]
  have hq1 : 0 < n / 128 := by omega
  have hq2 : 128 ≤ n / 128 := by omega
  have hq3 : n / 128 < 16384 := by omega
  simp only [hq1, dif_pos, or128_eq_add (Nat.mod_lt n (by omega)),
    encodeRemLen_two hq2 hq3]

theorem encodeRemLen_four {n : Nat} (h1 : 2097152 ≤ n) (h2 : n < 268435456) :
    encodeRemLen n =
      [n % 128 + 128, n / 128 % 128 + 128, n / 128 / 128 % 128 + 128,
        n / 128 / 128 / 128] := by
  rw [encodeRemLen]
  have hq1 : 0 < n / 128 := by omega
  have hq2 : 16384 ≤ n / 128 := by omega
  have hq3 : n / 128 < 2097152 := by omega
  simp only [hq1, dif_pos, or128_eq_add (Nat.mod_lt n (by omega)),
    encodeRemLen_three hq2 hq3]

/-- Embedding of the same loop over Python integers (Int with floor
division and floor modulus, which is what Python's // and % compute for
the positive divisor 128), with explicit fuel: the loop body runs at most
fuel times, and none is returned when the fuel runs out before the loop
breaks.  The digit length.fmod 128 always lies in [0, 128), so OR-ing in
0x80 coincides with adding 128, and each emitted byte is nonnegative. -/
def encodeRemLenInt : Nat → Int → Option (List Nat)
  | 0, _ => none
  | fuel + 1, length =>
    let digit := Int.fmod length 128
    let q := Int.fdiv length 128
    let d := if 0 < q then digit + 128 else digit
    if q = 0 then some [d.toNat]
    else (encodeRemLenInt fuel q).map fun rest => d.toNat :: rest

theorem encodeRemLenInt_ofNat :
    ∀ (fuel n : Nat), n < fuel →
      encodeRemLenInt fuel (n : Int) = some (encodeRemLen n) := by
  intro fuel
  induction fuel with
  | zero => intro n h; omega
  | succ fuel ih =>
    intro n h
    have hfm : Int.fmod (n : Int) 128 = ((n % 128 : Nat) : Int) := by
      rw [Int.fmod_eq_emod _ (by omega)]
      exact (Int.ofNat_emod n 128).symm
    have hfd : Int.fdiv (n : Int) 128 = ((n / 128 : Nat) : Int) := by
      rw [Int.fdiv_eq_ediv _ (by omega)]
      exact (Int.ofNat_ediv n 128).symm
    rw [encodeRemLen]
    by_cases hq : n / 128 > 0
    · have hrec := ih (n / 128) (by omega)
      simp only [encodeRemLenInt, hfm, hfd, hrec]
      have hqpos : (0 : Int) < ((n / 128 : Nat) : Int) := by
        exact_mod_cast hq
      have hqne : ((n / 128 : Nat) : Int) ≠ 0 := by omega
      simp only [hqpos, if_pos, hqne, if_neg, Option.map_some, hq, dif_pos]
      have hd : ((n % 128 : Nat) : Int) + 128 = (((n % 128 + 128 : Nat)) : Int) := by
        push_cast; ring
      rw [hd, Int.toNat_ofNat, or128_eq_add (Nat.mod_lt n (by omega))]
      simp
    · have hq0 : n / 128 = 0 := by omega
      simp only [encodeRemLenInt, hfm, hfd, hq0, Nat.cast_zero, lt_irrefl,
        if_false, if_pos, Int.toNat_ofNat, hq, dif_neg]
      simp

theorem encodeRemLenInt_negOne :
    ∀ fuel : Nat, encodeRemLenInt fuel (-1) = none := by
  intro fuel
  induction fuel with
  | zero => rfl
  | succ fuel ih =>
    have hfd : Int.fdiv (-1) 128 = -1 := by decide
    simp only [encodeRemLenInt, hfd, ih]
    norm_num

theorem rlDecode_encodeRemLen (n : Nat) : rlDecode (encodeRemLen n) = n := by
  induction n using Nat.strong_induction_on with
  | _ n ih =>
    rw [encodeRemLen]
    by_cases h : n / 128 > 0
    · have hlt : n / 128 < n := by omega
      simp only [h, dif_pos, rlDecode, ih (n / 128) hlt]
      have hd : n % 128 < 128 := Nat.mod_lt n (by omega)
      rw [or128_eq_add hd]
      omega
    · simp only [h, dif_neg, rlDecode]
      omega

/-- Big-endian 2-byte encoding produced by struct.pack applied with the
format ">H"; every use in this file passes a value at most 65535 (the
Python call raises for larger values). -/
def pack16 (n : Nat) : List Nat := [n / 256 % 256, n % 256]

/-- Embedding of MQTTConnection.build_connect_packet.  The client
identifier is carried as its list of bytes (the Python object stores an
ASCII str, for which the character count used in the length field equals
the byte count of its encoding). -/
def buildConnectPacket (cid : List Nat) : List Nat :=
  let var_header := pack16 4 ++ [0x4D, 0x51, 0x54, 0x54] ++ [0x04] ++ [0x02] ++ pack16 60
  let payload := pack16 cid.length ++ cid
  let remaining := var_header.length + payload.length
  [0x10] ++ encodeRemLen remaining ++ var_header ++ payload

/-- Condition under which MQTTConnection.connect accepts a CONNACK reply
buffer: at least 4 bytes, packet-type nibble (first byte shifted right by
4) equal to 2, and 4th byte (the connect return code) equal to 0. -/
def connAckSuccess (r : List Nat) : Bool :=
  if 4 ≤ r.length then
    if r.getD 0 0 >>> 4 == 2 then r.getD 3 0 == 0 else false
  else false

/-- Transport operations a lifecycle function can perform, recorded as a
trace; socket handles are opaque numeric identifiers. -/
inductive TOp where
  | openSock (s : Nat)
  | send (s : Nat) (data : List Nat)
  | recv (s : Nat) (maxBytes : Nat)
  | close (s : Nat)
deriving DecidableEq

/-- Outcome of the network interaction during MQTTConnection.connect,
after the socket object has been created and stored in self.sock: an
exception raised while connecting, while sending, or while receiving (all
caught by the surrounding try block), or a reply buffer returned by the
recv call reading at most 4 bytes. -/
inductive NetEvent where
  | errConn
  | errSend
  | errRecv
  | reply (r : List Nat)
deriving DecidableEq

/-- State of one MQTTConnection object: host, port, client identifier
bytes, the stored socket (none models Python None), and the connected
flag. -/
structure MQTTConn where
  host : String
  port : Nat
  client_id : List Nat
  sock : Option Nat
  connected : Bool
deriving DecidableEq

/-- Embedding of the MQTTConnection constructor. -/
def mkMQTTConn (host : String) (port : Nat) (client_id : List Nat) : MQTTConn :=
  { host := host, port := port, client_id := client_id, sock := none,
    connected := false }

/-- Embedding of MQTTConnection.connect.  A fresh socket s is created and
stored in self.sock, the CONNECT packet is sent, and up to 4 reply bytes
are read; on a successful CONNACK the connected flag is set and True is
returned.  Any exception is caught and False is returned.  Returns the
updated object, the boolean result, and the trace of transport operations
attempted. -/
def MQTTConn.connect (c : MQTTConn) (s : Nat) (ev : NetEvent) :
    MQTTConn × Bool × List TOp :=
  let c1 := { c with sock := some s }
  let pkt := buildConnectPacket c.client_id
  match ev with
  | .errConn => (c1, false, [.openSock s])
  | .errSend => (c1, false, [.openSock s, .send s pkt])
  | .errRecv => (c1, false, [.openSock s, .send s pkt, .recv s 4])
  | .reply r =>
    if connAckSuccess r then
      ({ c1 with connected := true }, true,
        [.openSock s, .send s pkt, .recv s 4])
    else
      (c1, false, [.openSock s, .send s pkt, .recv s 4])

/-- Embedding of MQTTConnection.disconnect: when a socket is stored, send
a DISCONNECT packet best-effort and close the socket (exceptions from both
calls are swallowed); in every case clear self.sock and the connected
flag. -/
def MQTTConn.disconnect (c : MQTTConn) : MQTTConn × List TOp :=
  match c.sock with
  | some s =>
    ({ c with sock := none, connected := false },
      [.send s [0xE0, 0x00], .close s])
  | none => ({ c with sock := none, connected := false }, [])

/-- Client identifier chosen when the cached MQTTConnection is first
created in pre_send_connect: the bytes of "fuzz_" followed by the decimal
digits of the integer timestamp. -/
def clientIdFor (t : Nat) : List Nat :=
  ("fuzz_" ++ toString t).data.map Char.toNat

/-- Embedding of pre_send_connect: fetch the cached MQTTConnection from
the session object (creating and caching one, with a timestamp-derived
client identifier, when absent), and run the handshake when the connected
flag is not set.  The session state is the cached connection or none; t
is the integer timestamp at the moment of the call. -/
def preSendConnect (sess : Option MQTTConn) (host : String) (port : Nat)
    (t : Nat) (s : Nat) (ev : NetEvent) : Option MQTTConn × List TOp :=
  let mqtt := match sess with
    | none => mkMQTTConn host port (clientIdFor t)
    | some m => m
  if mqtt.connected then (some mqtt, [])
  else
    let res := mqtt.connect s ev
    (some res.1, res.2.2)

/-- Condition under which post_test_case_callback keeps the session: the
probe reply exists, the recv call reading at most 2 bytes returned exactly
2 bytes, and the first byte equals 0xD0; the second byte (the
remaining-length byte) is not examined.  The argument none models an
exception (timeout or transport error) during the probe. -/
def pingReplyAccepted : Option (List Nat) → Bool
  | some r => decide (r.length = 2) && decide (r.getD 0 0 = 0xD0)
  | none => false

/-- Embedding of post_test_case_callback: when a cached connection with a
stored socket exists, send PINGREQ and read up to 2 reply bytes; keep the
session untouched when the reply is accepted, otherwise run disconnect and
clear the connected flag. -/
def postTestCase (sess : Option MQTTConn) (reply : Option (List Nat)) :
    Option MQTTConn × List TOp :=
  match sess with
  | none => (none, [])
  | some c =>
    match c.sock with
    | none => (some c, [])
    | some s =>
      let probeOps : List TOp := [.send s [0xC0, 0x00], .recv s 2]
      if pingReplyAccepted reply then (some c, probeOps)
      else
        let res := c.disconnect
        (some { res.1 with connected := false }, probeOps ++ res.2)

/-- Modelled from the spec: validity of a PINGRESP reply per the spec's
words, true iff the buffer carries the PINGRESP type byte with zero flags
(exactly 0xD0) as its first byte and a remaining length equal to 0. -/
def pingRespSpec (r : List Nat) : Bool :=
  decide (2 ≤ r.length) && decide (r.getD 0 0 = 0xD0) && decide (r.getD 1 0 = 0)

/-- Concrete authenticated connection used in witnesses and
counterexamples: socket handle 3, client identifier from timestamp 5. -/
def sampleConn : MQTTConn :=
  { host := "localhost", port := 1883, client_id := clientIdFor 5,
    sock := some 3, connected := true }

theorem encodeRemLen_length_eq {n : Nat} (h : n ≤ 268435455) :
    (encodeRemLen n).length = rlCanonLen n := by
  rcases Nat.lt_or_ge n 128 with h1 | h1
  · rw [encodeRemLen_low h1, rlCanonLen, if_pos h1]
    rfl
  rcases Nat.lt_or_ge n 16384 with h2 | h2
  · rw [encodeRemLen_two h1 h2, rlCanonLen, if_neg (by omega), if_pos h2]
    rfl
  rcases Nat.lt_or_ge n 2097152 with h3 | h3
  · rw [encodeRemLen_three h2 h3, rlCanonLen, if_neg (by omega),
      if_neg (by omega), if_pos h3]
    rfl
  · rw [encodeRemLen_four h3 (by omega), rlCanonLen, if_neg (by omega),
      if_neg (by omega), if_neg (by omega)]
    rfl

theorem encodeRemLen_wellFormed {n : Nat} (h : n ≤ 268435455) :
    rlWellFormed (encodeRemLen n) = true := by
  rcases Nat.lt_or_ge n 128 with h1 | h1
  · rw [encodeRemLen_low h1]
    simp [rlWellFormed]
    omega
  rcases Nat.lt_or_ge n 16384 with h2 | h2
  · rw [encodeRemLen_two h1 h2]
    simp [rlWellFormed]
    omega
  rcases Nat.lt_or_ge n 2097152 with h3 | h3
  · rw [encodeRemLen_three h2 h3]
    simp [rlWellFormed]
    omega
  · rw [encodeRemLen_four h3 (by omega)]
    simp [rlWellFormed]
    omega

theorem rlCanonLen_le_four (n : Nat) : rlCanonLen n ≤ 4 := by
  rw [rlCanonLen]
  split_ifs <;> norm_num

/-- C1: for every n with 0 ≤ n ≤ 268435455 the remaining-length encoder
terminates with the canonical shortest variable-byte encoding of n: its
byte count is the canonical one (hence at most 4), the continuation bit is
set on every byte except the last and clear on the last, reading back the
7 data bits of each byte recovers n, and the three landmark values 127,
128 and 268435455 encode exactly as stated. -/
theorem claim_C1 (n : Nat) (h : n ≤ 268435455) :
    (encodeRemLen n).length = rlCanonLen n ∧
    (encodeRemLen n).length ≤ 4 ∧
    rlWellFormed (encodeRemLen n) = true ∧
    rlDecode (encodeRemLen n) = n ∧
    encodeRemLen 127 = [0x7F] ∧
    encodeRemLen 128 = [0x80, 0x01] ∧
    encodeRemLen 268435455 = [0xFF, 0xFF, 0xFF, 0x7F] := by
  refine ⟨encodeRemLen_length_eq h, ?_, encodeRemLen_wellFormed h,
    rlDecode_encodeRemLen n, ?_, ?_, ?_⟩
  · rw [encodeRemLen_length_eq h]
    exact rlCanonLen_le_four n
  · rw [encodeRemLen_low (by norm_num)]
  · rw [encodeRemLen_two (by norm_num) (by norm_num)]
  · rw [encodeRemLen_four (by norm_num) (by norm_num)]

/-- Witness for C1 at the concrete input 200. -/
theorem claim_C1_wit :
    (encodeRemLen 200).length = rlCanonLen 200 ∧
    (encodeRemLen 200).length ≤ 4 ∧
    rlWellFormed (encodeRemLen 200) = true ∧
    rlDecode (encodeRemLen 200) = 200 ∧
    encodeRemLen 127 = [0x7F] ∧
    encodeRemLen 128 = [0x80, 0x01] ∧
    encodeRemLen 268435455 = [0xFF, 0xFF, 0xFF, 0x7F] :=
  claim_C1 200 (by norm_num)

/-- C8: evaluation of the encoder at the failing input 268435456, one
above the MQTT maximum.  The code has no range check: instead of failing
with ValueOutOfRange it returns the non-canonical 5-byte sequence
80 80 80 80 01, longer than the 4 bytes the wire format allows. -/
theorem claim_C8_eval :
    encodeRemLen 268435456 = [0x80, 0x80, 0x80, 0x80, 0x01] ∧
    4 < (encodeRemLen 268435456).length := by
  have h1 : encodeRemLen 2097152 = [128, 128, 128, 1] := by
    rw [encodeRemLen_four (by norm_num) (by norm_num)]
  have h2 : encodeRemLen 268435456 = [128, 128, 128, 128, 1] := by
    rw [encodeRemLen]
    norm_num [h1]
  rw [h2]
  norm_num

/-- C10: for every nonnegative n the encoder terminates with a nonempty
byte string — with fuel n + 1 the Python-integer model of the loop already
finishes, agreeing with the total function — encoding 0 yields the single
byte 0x00, and the precondition n ≥ 0 is genuine: on the negative input -1
the loop never exits, since no amount of fuel makes the model return. -/
theorem claim_C10 :
    (∀ n : Nat, encodeRemLen n ≠ []) ∧
    encodeRemLen 0 = [0x00] ∧
    (∀ n : Nat, encodeRemLenInt (n + 1) (n : Int) = some (encodeRemLen n)) ∧
    (∀ fuel : Nat, encodeRemLenInt fuel (-1) = none) := by
  refine ⟨?_, ?_, ?_, encodeRemLenInt_negOne⟩
  · intro n
    rw [encodeRemLen]
    by_cases hq : n / 128 > 0 <;> simp [hq]
  · rw [encodeRemLen_low (by norm_num)]
  · intro n
    exact encodeRemLenInt_ofNat (n + 1) n (by omega)

/-- Byte values of the ASCII string used by the spec's CONNECT test
vector. -/
def fuzzer1Bytes : List Nat := [0x66, 0x75, 0x7A, 0x7A, 0x65, 0x72, 0x31]

/-- C2: for every client identifier of at most 65535 bytes the CONNECT
packet is the fixed-header byte 0x10, then the encoded remaining length —
whose value equals the serialized size of variable header plus payload,
10 + (2 + the identifier length) — then the protocol name block
00 04 4D 51 54 54, protocol level 04, connect flags 02 (Clean Session),
big-endian keep-alive 00 3C, and the 2-byte big-endian identifier length
followed by the identifier bytes; with the identifier bytes of "fuzzer1"
the packet is exactly 10 13 00 04 4D 51 54 54 04 02 00 3C 00 07 followed
by those bytes. -/
theorem claim_C2 (cid : List Nat) (h : cid.length ≤ 65535) :
    buildConnectPacket cid =
      [0x10] ++ encodeRemLen (10 + (2 + cid.length)) ++
        [0x00, 0x04, 0x4D, 0x51, 0x54, 0x54, 0x04, 0x02, 0x00, 0x3C] ++
        [cid.length / 256, cid.length % 256] ++ cid ∧
    rlDecode (encodeRemLen (10 + (2 + cid.length))) = 10 + (2 + cid.length) ∧
    buildConnectPacket fuzzer1Bytes =
      [0x10, 0x13, 0x00, 0x04, 0x4D, 0x51, 0x54, 0x54, 0x04, 0x02, 0x00,
        0x3C, 0x00, 0x07] ++ fuzzer1Bytes := by
  refine ⟨?_, rlDecode_encodeRemLen _, ?_⟩
  · have hd : cid.length / 256 % 256 = cid.length / 256 :=
      Nat.mod_eq_of_lt (by omega)
    simp [buildConnectPacket, pack16, hd]
    ring_nf
  · have h19 : encodeRemLen 19 = [19] := encodeRemLen_low (by norm_num)
    simp [buildConnectPacket, pack16, fuzzer1Bytes, h19]

/-- Witness for C2 at the concrete identifier bytes of "fuzzer1". -/
theorem claim_C2_wit :
    buildConnectPacket fuzzer1Bytes =
      [0x10] ++ encodeRemLen (10 + (2 + fuzzer1Bytes.length)) ++
        [0x00, 0x04, 0x4D, 0x51, 0x54, 0x54, 0x04, 0x02, 0x00, 0x3C] ++
        [fuzzer1Bytes.length / 256, fuzzer1Bytes.length % 256] ++
        fuzzer1Bytes ∧
    rlDecode (encodeRemLen (10 + (2 + fuzzer1Bytes.length))) =
      10 + (2 + fuzzer1Bytes.length) ∧
    buildConnectPacket fuzzer1Bytes =
      [0x10, 0x13, 0x00, 0x04, 0x4D, 0x51, 0x54, 0x54, 0x04, 0x02, 0x00,
        0x3C, 0x00, 0x07] ++ fuzzer1Bytes :=
  claim_C2 fuzzer1Bytes (by norm_num [fuzzer1Bytes])

/-- C4: the CONNACK handshake check accepts exactly the reply buffers with
at least 4 bytes whose packet-type nibble (first byte divided by 16) is 2
and whose 4th byte is 0; the three landmark buffers behave as the spec
states, and whenever the check rejects a reply, the connect embedding
returns False as a value — no exception escapes, since the embedding is a
total function. -/
theorem claim_C4 :
    (∀ r : List Nat, connAckSuccess r = true ↔
      (4 ≤ r.length ∧ r.getD 0 0 / 16 = 2 ∧ r.getD 3 0 = 0)) ∧
    connAckSuccess [0x20, 0x02, 0x00, 0x00] = true ∧
    connAckSuccess [0x20, 0x02, 0x00, 0x05] = false ∧
    connAckSuccess [0x20] = false ∧
    (∀ (c : MQTTConn) (s : Nat) (r : List Nat), connAckSuccess r = false →
      (c.connect s (NetEvent.reply r)).2.1 = false) := by
  refine ⟨?_, by decide, by decide, by decide, ?_⟩
  · intro r
    have hs : r.getD 0 0 >>> 4 = r.getD 0 0 / 16 := by
      rw [Nat.shiftRight_eq_div_pow]
    rw [connAckSuccess, hs]
    split_ifs with h1 h2 <;> simp_all
  · intro c s r hr
    simp [MQTTConn.connect, hr]

/-- Witness for C4: the connect embedding returns False on the 1-byte
reply 0x20, which the check rejects. -/
theorem claim_C4_wit :
    (sampleConn.connect 7 (NetEvent.reply [0x20])).2.1 = false :=
  claim_C4.2.2.2.2 sampleConn 7 [0x20] (by decide)

/-- C5 counterexample: at the concrete failing handshake where the broker
refuses the connection with CONNACK return code 5, the connect embedding
reports False but leaves the freshly opened socket handle 7 stored in
sock and performs no close operation — the partially-open transport is
not closed, contrary to the claim. -/
theorem claim_C5_cex :
    ((mkMQTTConn "localhost" 1883 (clientIdFor 5)).connect 7
        (NetEvent.reply [0x20, 0x02, 0x00, 0x05])).2.1 = false ∧
    ((mkMQTTConn "localhost" 1883 (clientIdFor 5)).connect 7
        (NetEvent.reply [0x20, 0x02, 0x00, 0x05])).1.sock = some 7 ∧
    TOp.close 7 ∉
      ((mkMQTTConn "localhost" 1883 (clientIdFor 5)).connect 7
        (NetEvent.reply [0x20, 0x02, 0x00, 0x05])).2.2 := by
  have hca : connAckSuccess [0x20, 0x02, 0x00, 0x05] = false := by decide
  refine ⟨?_, ?_, ?_⟩ <;> simp [MQTTConn.connect, mkMQTTConn, hca]

/-- C5 amended: on every handshake failure (exception while connecting,
sending or receiving, or a rejected CONNACK reply) the connect embedding
returns False as a value, the connected flag stays False, exactly one
socket open appears in the trace (no internal retry), and no close is
performed: the partially-open transport stays stored in sock instead of
being closed. -/
theorem claim_C5_amended (c : MQTTConn) (s : Nat) (ev : NetEvent)
    (hc : c.connected = false) (hf : (c.connect s ev).2.1 = false) :
    (c.connect s ev).1.connected = false ∧
    (c.connect s ev).1.sock = some s ∧
    ((c.connect s ev).2.2.filter fun op => match op with
      | TOp.openSock _ => true
      | _ => false).length = 1 ∧
    (∀ t : Nat, TOp.close t ∉ (c.connect s ev).2.2) := by
  cases ev with
  | errConn => simp [MQTTConn.connect, hc, List.filter]
  | errSend => simp [MQTTConn.connect, hc, List.filter]
  | errRecv => simp [MQTTConn.connect, hc, List.filter]
  | reply r =>
    by_cases hr : connAckSuccess r
    · exfalso
      simp [MQTTConn.connect, hr] at hf
    · simp only [Bool.not_eq_true] at hr
      simp [MQTTConn.connect, hr, hc, List.filter]

/-- Witness for C5 amended: a connect timeout against an initial
connection object. -/
theorem claim_C5_wit :
    ((mkMQTTConn "localhost" 1883 (clientIdFor 5)).connect 2
        NetEvent.errConn).1.connected = false ∧
    ((mkMQTTConn "localhost" 1883 (clientIdFor 5)).connect 2
        NetEvent.errConn).1.sock = some 2 ∧
    (((mkMQTTConn "localhost" 1883 (clientIdFor 5)).connect 2
        NetEvent.errConn).2.2.filter fun op => match op with
      | TOp.openSock _ => true
      | _ => false).length = 1 ∧
    (∀ t : Nat, TOp.close t ∉
      ((mkMQTTConn "localhost" 1883 (clientIdFor 5)).connect 2
        NetEvent.errConn).2.2) :=
  claim_C5_amended (mkMQTTConn "localhost" 1883 (clientIdFor 5)) 2
    NetEvent.errConn rfl rfl

/-- C3 counterexample: the 2-byte reply D0 05 is not a valid PINGRESP (its
remaining-length byte is 5, not 0 — a malformed reply in the claim's
sense), yet the post-test probe leaves the session authenticated with the
transport still stored open, so a failed probe can leave the session
Authenticated. -/
theorem claim_C3_cex :
    pingRespSpec [0xD0, 0x05] = false ∧
    (postTestCase (some sampleConn) (some [0xD0, 0x05])).1 = some sampleConn ∧
    sampleConn.connected = true ∧
    sampleConn.sock = some 3 := by
  refine ⟨by decide, ?_, rfl, rfl⟩
  simp [postTestCase, sampleConn, pingReplyAccepted]

/-- C3 amended: for every post-test probe run while the session is
authenticated with a stored socket, if a 2-byte reply whose first byte is
0xD0 arrives within the timeout the session object is kept untouched and
no close is performed, and otherwise — timeout, transport error, or any
reply the callback rejects — the transport is closed and both the socket
and the connected flag are cleared, so the session is never left
authenticated after a probe the callback deems failed. -/
theorem claim_C3_amended (c : MQTTConn) (s : Nat) (reply : Option (List Nat))
    (hath : c.connected = true) (hs : c.sock = some s) :
    (∀ r, reply = some r → r.length = 2 → r.getD 0 0 = 0xD0 →
      postTestCase (some c) reply =
        (some c, [TOp.send s [0xC0, 0x00], TOp.recv s 2])) ∧
    ((∀ r, reply = some r → ¬(r.length = 2 ∧ r.getD 0 0 = 0xD0)) →
      (postTestCase (some c) reply).1 =
        some { c with sock := none, connected := false } ∧
      TOp.close s ∈ (postTestCase (some c) reply).2) := by
  constructor
  · intro r hr h2 hd
    subst hr
    have hb : pingReplyAccepted (some r) = true := by
      simp only [pingReplyAccepted]
      rw [h2, hd]
      decide
    simp [postTestCase, hs, hb]
  · intro hrej
    cases reply with
    | none =>
      simp [postTestCase, hs, pingReplyAccepted, MQTTConn.disconnect]
    | some r =>
      have hna : ¬(r.length = 2 ∧ r.getD 0 0 = 0xD0) := hrej r rfl
      have hacc : pingReplyAccepted (some r) = false := by
        simp only [pingReplyAccepted]
        by_cases hl : r.length = 2
        · by_cases hg : r.getD 0 0 = 0xD0
          · exact absurd ⟨hl, hg⟩ hna
          · rw [decide_eq_false hg, Bool.and_false]
        · rw [decide_eq_false hl, Bool.false_and]
      simp [postTestCase, hs, hacc, MQTTConn.disconnect]

/-- Witness for C3 amended: a well-formed PINGRESP reply keeps the sample
session untouched. -/
theorem claim_C3_wit :
    postTestCase (some sampleConn) (some [0xD0, 0x00]) =
      (some sampleConn, [TOp.send 3 [0xC0, 0x00], TOp.recv 3 2]) :=
  (claim_C3_amended sampleConn 3 (some [0xD0, 0x00]) rfl rfl).1
    [0xD0, 0x00] rfl rfl rfl

/-- C7 counterexample: at the concrete reply D0 05 the remaining-length
byte is 5, not 0, yet the probe accepts the reply and keeps the session
authenticated — the callback never examines the remaining-length byte,
contrary to the claimed iff. -/
theorem claim_C7_cex :
    pingReplyAccepted (some [0xD0, 0x05]) = true ∧
    [0xD0, 0x05].getD 1 0 ≠ 0 ∧
    ((postTestCase (some sampleConn) (some [0xD0, 0x05])).1.map
      MQTTConn.connected) = some true := by
  refine ⟨by decide, by decide, ?_⟩
  simp [postTestCase, sampleConn, pingReplyAccepted]

/-- C7 amended: for a session with a stored socket, the post-test probe
keeps the session object exactly when the reply is a 2-byte buffer whose
first byte is 0xD0; the remaining-length byte is never examined, so any
second byte is accepted. -/
theorem claim_C7_amended (c : MQTTConn) (s : Nat) (r : List Nat)
    (hs : c.sock = some s) :
    (postTestCase (some c) (some r)).1 = some c ↔
      (r.length = 2 ∧ r.getD 0 0 = 0xD0) := by
  by_cases hacc : r.length = 2 ∧ r.getD 0 0 = 0xD0
  · have hb : pingReplyAccepted (some r) = true := by
      simp only [pingReplyAccepted]
      rw [hacc.1, hacc.2]
      decide
    have hres : (postTestCase (some c) (some r)).1 = some c := by
      simp [postTestCase, hs, hb]
    rw [hres]
    exact iff_of_true rfl hacc
  · have hb : pingReplyAccepted (some r) = false := by
      simp only [pingReplyAccepted]
      by_cases hl : r.length = 2
      · by_cases hg : r.getD 0 0 = 0xD0
        · exact absurd ⟨hl, hg⟩ hacc
        · rw [decide_eq_false hg, Bool.and_false]
      · rw [decide_eq_false hl, Bool.false_and]
    refine iff_of_false ?_ hacc
    have hres : (postTestCase (some c) (some r)).1 =
        some { c with sock := none, connected := false } := by
      simp [postTestCase, hs, hb, MQTTConn.disconnect]
    rw [hres, Option.some.injEq]
    intro heq
    have hsock := congrArg MQTTConn.sock heq
    simp [hs] at hsock


/-- Witness for C7 amended: the reply D0 07 — first byte 0xD0, length 2 —
keeps the sample session. -/
theorem claim_C7_wit :
    (postTestCase (some sampleConn) (some [0xD0, 0x07])).1 = some sampleConn :=
  (claim_C7_amended sampleConn 3 [0xD0, 0x07] rfl).mpr (by decide)

/-- C9: whenever the pre-test hook runs while the cached connection's
connected flag is set, it returns the session completely unchanged — the
same connection object, hence the same host, port, client identifier,
socket and connected flag — and performs no transport operation. -/
theorem claim_C9 (m : MQTTConn) (host : String) (port : Nat)
    (t s : Nat) (ev : NetEvent) (hc : m.connected = true) :
    preSendConnect (some m) host port t s ev = (some m, []) := by
  simp [preSendConnect, hc]

/-- Witness for C9 at the sample authenticated connection. -/
theorem claim_C9_wit :
    preSendConnect (some sampleConn) "localhost" 1883 42 9 NetEvent.errConn =
      (some sampleConn, []) :=
  claim_C9 sampleConn "localhost" 1883 42 9 NetEvent.errConn rfl

/-- Session cached after the first pre-test hook call of a run: at
timestamp 5 the hook creates the connection manager (client identifier
fuzz_5), opens socket 1 and completes the handshake against a CONNACK
with return code 0. -/
def c6Sess1 : Option MQTTConn :=
  (preSendConnect none "localhost" 1883 5 1
    (NetEvent.reply [0x20, 0x02, 0x00, 0x00])).1

/-- Trace of that first hook call. -/
def c6Trace1 : List TOp :=
  (preSendConnect none "localhost" 1883 5 1
    (NetEvent.reply [0x20, 0x02, 0x00, 0x00])).2

/-- Session after a liveness probe that times out: the connection is torn
down and marked not connected. -/
def c6Sess2 : Option MQTTConn := (postTestCase c6Sess1 none).1

/-- Trace of the reconnect attempt performed by the next pre-test hook
call, at the later timestamp 99, over fresh socket 2. -/
def c6Trace3 : List TOp :=
  (preSendConnect c6Sess2 "localhost" 1883 99 2
    (NetEvent.reply [0x20, 0x02, 0x00, 0x00])).2

/-- C6 counterexample: in the concrete run above, the initial handshake
attempt and the reconnect attempt after the failed liveness probe send
CONNECT packets carrying the same client identifier fuzz_5 — the cached
connection object keeps the identifier fixed at creation, so the second
attempt's identifier is not distinct from the first. -/
theorem claim_C6_cex :
    TOp.send 1 (buildConnectPacket (clientIdFor 5)) ∈ c6Trace1 ∧
    TOp.send 2 (buildConnectPacket (clientIdFor 5)) ∈ c6Trace3 := by
  have hca : connAckSuccess [0x20, 0x02, 0x00, 0x00] = true := by decide
  constructor
  · simp [c6Trace1, preSendConnect, mkMQTTConn, MQTTConn.connect, hca]
  · simp [c6Trace3, c6Sess2, c6Sess1, preSendConnect, postTestCase,
      pingReplyAccepted, MQTTConn.disconnect, mkMQTTConn, MQTTConn.connect,
      hca]

/-- C6 amended: the client identifier is fixed when the cached connection
manager is first created — fuzz_ followed by the creation timestamp — and
every lifecycle operation preserves it, so all handshake attempts within
one run send equal, not distinct, client identifiers. -/
theorem claim_C6_amended :
    (∀ (c : MQTTConn) (s : Nat) (ev : NetEvent),
      (c.connect s ev).1.client_id = c.client_id) ∧
    (∀ c : MQTTConn, c.disconnect.1.client_id = c.client_id) ∧
    (∀ (sess : Option MQTTConn) (reply : Option (List Nat)),
      (postTestCase sess reply).1.map MQTTConn.client_id =
        sess.map MQTTConn.client_id) ∧
    (∀ (m : MQTTConn) (host : String) (port t s : Nat) (ev : NetEvent),
      (preSendConnect (some m) host port t s ev).1.map MQTTConn.client_id =
        some m.client_id) ∧
    (∀ (host : String) (port t s : Nat) (ev : NetEvent),
      (preSendConnect none host port t s ev).1.map MQTTConn.client_id =
        some (clientIdFor t)) := by
  have hconn : ∀ (c : MQTTConn) (s : Nat) (ev : NetEvent),
      (c.connect s ev).1.client_id = c.client_id := by
    intro c s ev
    cases ev with
    | errConn => rfl
    | errSend => rfl
    | errRecv => rfl
    | reply r =>
      by_cases hr : connAckSuccess r
      · simp [MQTTConn.connect, hr]
      · simp only [Bool.not_eq_true] at hr
        simp [MQTTConn.connect, hr]
  refine ⟨hconn, ?_, ?_, ?_, ?_⟩
  · intro c
    rcases hc : c.sock with _ | s <;> simp [MQTTConn.disconnect, hc]
  · intro sess reply
    cases sess with
    | none => rfl
    | some c =>
      rcases hc : c.sock with _ | s
      · simp [postTestCase, hc]
      · by_cases hb : pingReplyAccepted reply
        · simp [postTestCase, hc, hb]
        · simp only [Bool.not_eq_true] at hb
          simp [postTestCase, hc, hb, MQTTConn.disconnect]
  · intro m host port t s ev
    by_cases hm : m.connected
    · simp [preSendConnect, hm]
    · simp only [Bool.not_eq_true] at hm
      simp [preSendConnect, hm, hconn]
  · intro host port t s ev
    simp [preSendConnect, mkMQTTConn, hconn]
